import Mathlib

/-!
Verification of the course-content search core (common/djangoapps/search):
result filtering (models.py SearchResults.filter), snippet generation and
fuzzy-match highlighting (models.py), and the indexing orchestrator with its
retrying request wrapper (es_requests.py).

The Python string primitives used by that code are modelled over List Char
with structural recursion so every definition evaluates by kernel reduction.
The source is Python 2: integer division is floor division, str.lower maps
only ASCII A-Z, and str.split() splits on whitespace runs dropping empties.
-/

/-- Python whitespace characters, as used by str.split() and str.strip(). -/
def pyIsSpace (c : Char) : Bool :=
  c = ' ' || c = '\t' || c = '\n' || c = '\r' || c = '\x0b' || c = '\x0c'

/-- Helper for pysplit: accumulates the current word (reversed) and splits on
whitespace runs, dropping empty words, exactly like Python str.split(). -/
def wordsAux : List Char → List Char → List (List Char)
  | acc, [] => if acc.isEmpty then [] else [acc.reverse]
  | acc, c :: rest =>
    if pyIsSpace c then
      if acc.isEmpty then wordsAux [] rest else acc.reverse :: wordsAux [] rest
    else wordsAux (c :: acc) rest

/-- Python str.split() with no argument: split on whitespace runs, no empties. -/
def pysplit (s : String) : List String := (wordsAux [] s.data).map String.mk

/-- Helper for pySplitChar: Python str.split(sep) keeps empty fields. -/
def splitOnCharAux (sep : Char) : List Char → List Char → List (List Char)
  | acc, [] => [acc.reverse]
  | acc, c :: rest =>
    if c = sep then acc.reverse :: splitOnCharAux sep [] rest
    else splitOnCharAux sep (c :: acc) rest

/-- Python str.split(sep) for a one-character separator: keeps empty fields. -/
def pySplitChar (s : String) (sep : Char) : List String :=
  (splitOnCharAux sep [] s.data).map String.mk

/-- Python " ".join(words). -/
def pyjoin : List String → String
  | [] => ""
  | [s] => s
  | s :: t :: rest => s ++ " " ++ pyjoin (t :: rest)

/-- Substring test on character lists (Python `needle in hay`). -/
def pyInfixAux (needle : List Char) : List Char → Bool
  | [] => needle.isEmpty
  | c :: rest => needle.isPrefixOf (c :: rest) || pyInfixAux needle rest

/-- Python `needle in hay` for strings: substring containment. -/
def pyin (needle hay : String) : Bool := pyInfixAux needle.data hay.data

/-- Python 2 str.lower() on one character: only ASCII A-Z are mapped. -/
def pyCharLower (c : Char) : Char :=
  if 65 ≤ c.toNat ∧ c.toNat ≤ 90 then Char.ofNat (c.toNat + 32) else c

/-- Python str.lower(). -/
def pyLower (s : String) : String := String.mk (s.data.map pyCharLower)

/-- Membership in Python string.punctuation, which is exactly the ASCII
ranges 33-47, 58-64, 91-96 and 123-126. -/
def pyIsPunc (c : Char) : Bool :=
  (33 ≤ c.toNat && c.toNat ≤ 47) || (58 ≤ c.toNat && c.toNat ≤ 64) ||
  (91 ≤ c.toNat && c.toNat ≤ 96) || (123 ≤ c.toNat && c.toNat ≤ 126)

/-- Removal of every string.punctuation character, as done both by the
regex [punctuation] substitution in SearchResults.filter and by the
translate-based depunctuation lambda in the match highlighter. -/
def removePunct (s : String) : String :=
  String.mk (s.data.filter (fun c => !pyIsPunc c))

/-- Python str.strip(): drop whitespace from both ends. -/
def pyStrip (s : String) : String :=
  String.mk (((s.data.dropWhile pyIsSpace).reverse.dropWhile pyIsSpace).reverse)

/-- models.py strip_punc lambda: `punc.sub("", s).lower()` — punctuation
removal first, then lowercasing. -/
def strip_punc (s : String) : String := pyLower (removePunct s)

/-- Normalization in the order the specification words it: lowercase first,
then remove all punctuation.  Compared with strip_punc below. -/
def lower_then_strip (s : String) : String := removePunct (pyLower s)

/-- One raw search hit, keyed by field name, as `entry.data` in models.py.
Python dict get with default: see entry_get. -/
structure SearchEntry where
  fields : List (String × String)
deriving DecidableEq

/-- Python `entry.data.get(field, "")`. -/
def entry_get (e : SearchEntry) (field : String) : String :=
  match e.fields.find? (fun p => p.1 == field) with
  | some p => p.2
  | none => ""

/-- models.py SearchResults.filter: `value` is None (modelled as Option.none)
or a string; None is replaced by "".  An entry passes when the
punctuation-stripped lowercased value is a substring of the
punctuation-stripped lowercased field text (default "" for a missing field).
The Python set of passing entries is modelled as the passing sublist. -/
def SearchResults_filter (entries : List SearchEntry) (field : String)
    (value : Option String) : List SearchEntry :=
  let v := match value with | none => "" | some s => s
  entries.filter (fun e => pyin (strip_punc v) (strip_punc (entry_get e field)))

/-- models.py _match: containment in either direction, and length difference
below one sixth of the combined length.  Python 2 `/` on ints is floor
division, hence Nat division here; the length difference of Python abs is
the truncated difference in both directions. -/
def _match (w0 w1 : String) : Bool :=
  let contained := pyin w0 w1 || pyin w1 w0
  let diff := if w0.length ≤ w1.length then w1.length - w0.length
              else w0.length - w1.length
  contained && decide (diff < (w0.length + w1.length) / 6)

/-- models.py _match_highlighter word loop: each word of the response is
wrapped when some query word fuzzy-matches its lowercased depunctuated form;
every word is followed by one space. -/
def highlight_words (query_set : List String) (wrap : String → String) :
    List String → String
  | [] => ""
  | w :: rest =>
    (if query_set.any (fun qw => _match qw (removePunct (pyLower w)))
     then wrap w ++ " " else w ++ " ") ++ highlight_words query_set wrap rest

/-- models.py _match_highlighter. The Python set of lowercased query words is
modelled as the list (only `any` over it is used, so duplicates are moot). -/
def _match_highlighter (query response : String)
    (tag : String := "b") (css_class : String := "highlight") : String :=
  let wrapping : String × String :=
    ("<" ++ tag ++ " class=" ++ css_class ++ ">", "</" ++ tag ++ ">")
  let wrap := fun (text : String) => wrapping.1 ++ text ++ wrapping.2
  let query_set := (pysplit query).map pyLower
  highlight_words query_set wrap (pysplit response)

/-- The lowercased query words (`substrings` in _snippet_generator). -/
def query_terms (query : String) : List String := (pysplit query).map pyLower

/-- _snippet_generator query_container lambda: some query word is a
substring of the lowercased sentence. -/
def query_container (substrings : List String) (sentence : String) : Bool :=
  substrings.any (fun sub => pyin sub (pyLower sentence))

/-- The main sentence loop of _snippet_generator, with the tripped flag and
response accumulator as explicit state.  Before tripping, a matching sentence
is appended (from the empty response) and trips the flag; after tripping,
whole sentences are appended while the word total stays under soft_max, and
the first sentence crossing it contributes only its first word_margin words
before the loop breaks. -/
def snippet_loop (substrings : List String) (soft_max word_margin : Nat) :
    List String → Bool → String → Bool × String
  | [], tripped, response => (tripped, response)
  | sentence :: rest, tripped, response =>
    if tripped then
      if (pysplit response).length + (pysplit sentence).length < soft_max then
        snippet_loop substrings soft_max word_margin rest true
          (response ++ " " ++ sentence)
      else (true, response ++ " " ++ pyjoin ((pysplit sentence).take word_margin))
    else if query_container substrings sentence then
      snippet_loop substrings soft_max word_margin rest true (response ++ sentence)
    else snippet_loop substrings soft_max word_margin rest false response

/-- The fallback loop of _snippet_generator, run from the empty response over
all sentences when no sentence tripped the match. -/
def fallback_loop (soft_max word_margin : Nat) : List String → String → String
  | [], response => response
  | sentence :: rest, response =>
    if (pysplit response).length + (pysplit sentence).length < soft_max then
      fallback_loop soft_max word_margin rest (response ++ " " ++ sentence)
    else response ++ " " ++ pyjoin ((pysplit sentence).take word_margin)

/-- The snippet text computed by _snippet_generator before the bold
highlighting step.  The nltk punkt sentence tokenizer is an external
language model; its output is taken as the sentence list input. -/
def snippet_response (sentences : List String) (query : String)
    (soft_max word_margin : Nat) : String :=
  let substrings := query_terms query
  let result := snippet_loop substrings soft_max word_margin sentences false ""
  if result.1 then result.2 else fallback_loop soft_max word_margin sentences ""

/-- models.py _snippet_generator over a tokenized transcript. -/
def _snippet_generator (sentences : List String) (query : String)
    (soft_max : Nat := 50) (word_margin : Nat := 25) (bold : Bool := true) : String :=
  let response := snippet_response sentences query soft_max word_margin
  if bold then _match_highlighter query response else response

/-- The transport-level exception caught by flaky_request
(requests.exceptions.RequestException). -/
inductive RequestFailure
  | err
deriving DecidableEq

/-- An HTTP response object, of which index_course reads .content. -/
structure EsResponse where
  content : String
deriving DecidableEq

/-- The attempt loop of es_requests.flaky_request: run the numbered attempts
in order; the first attempt returning a response breaks the loop, an attempt
raising RequestException is swallowed and the next one runs; none left means
the response stays None. -/
def flaky_request_loop (attempt : Nat → Except RequestFailure EsResponse) :
    Nat → Nat → Option EsResponse
  | _, 0 => none
  | i, n + 1 =>
    match attempt i with
    | Except.ok r => some r
    | Except.error _ => flaky_request_loop attempt (i + 1) n

/-- es_requests.flaky_request: at most `attempts` tries (default 2), catching
RequestException each time; None exactly when every try failed.  The network
is modelled by `attempt`, giving each numbered try its outcome. -/
def flaky_request (attempt : Nat → Except RequestFailure EsResponse)
    (attempts : Nat := 2) : Option EsResponse :=
  flaky_request_loop attempt 0 attempts

/-- The es schema document built by MongoIndexer.basic_dict: all seven
required fields. -/
structure SearchDocument where
  id : String
  hash : String
  display_name : String
  course_id : String
  searchable_text : String
  thumbnail : String
  type_hash : String
deriving DecidableEq

/-- The value list of the document dict (a fixed traversal order; the
submission check below does not depend on the order). -/
def sd_values (d : SearchDocument) : List String :=
  [d.id, d.hash, d.display_name, d.course_id, d.searchable_text,
   d.thumbnail, d.type_hash]

/-- index_course submission guard: Python
`filter(None, data.values()) == data.values()` — dropping falsy (empty)
strings must change nothing. -/
def index_course_submits (d : SearchDocument) : Bool :=
  (sd_values d).filter (fun s => !(s == "")) == sd_values d

/-- The AttributeError raised when `.content` is read from None. -/
inductive PyError
  | attributeError
deriving DecidableEq

/-- One module from the course cursor: its category tag and the document
basic_dict builds for it (the Mongo store and extractor lookups behind
basic_dict are abstracted into the prebuilt document). -/
structure CourseItem where
  category : String
  doc : SearchDocument
deriving DecidableEq

/-- es_requests.MongoIndexer.index_course over the items of a course cursor.
`submit index doc` is the outcome of es_instance.index_data (None when
flaky_request exhausted its attempts).  Categories other than video and
problem are skipped; a built document is submitted only when the guard
holds; after each submission `.content` is read from the result, which on a
None result raises AttributeError and aborts the whole iteration.  The ok
value lists the successful submissions in order. -/
def index_course (submit : String → SearchDocument → Option EsResponse) :
    List CourseItem → Except PyError (List (String × SearchDocument))
  | [] => Except.ok []
  | item :: rest =>
    let category := pyStrip (pyLower item.category)
    if category == "video" || category == "problem" then
      let data := item.doc
      let index := if category == "video" then "transcript-index" else "problem-index"
      if index_course_submits data then
        match submit index data with
        | some r =>
          let _ := r.content
          match index_course submit rest with
          | Except.ok subs => Except.ok ((index, data) :: subs)
          | Except.error e => Except.error e
        | none => Except.error PyError.attributeError
      else index_course submit rest
    else index_course submit rest

/-- es_requests.MongoIndexer.uuid_from_video_module on the data field of a
video module.  `Except.ok none` is the Python `return False` (single-entry
list), `Except.ok (some u)` a resolved identifier, and `Except.error` the
IndexError of `[...][0]` when no speed key contains "1.0".  The dict built
by the comprehension is modelled as a key-deduplicated association list
(later entries overwrite earlier ones). -/
def dict_update (m : List (String × String)) (kv : String × String) :
    List (String × String) :=
  if m.any (fun p => p.1 == kv.1) then
    m.map (fun p => if p.1 == kv.1 then kv else p)
  else m ++ [kv]

/-- uuid_from_video_module, see dict_update. -/
def uuid_from_video_module (data : String) : Except String (Option String) :=
  let uuids := pySplitChar data ','
  if uuids.length == 1 then Except.ok none
  else
    let entries := uuids.map (fun entry =>
      let parts := pySplitChar (entry ++ ":") ':'
      (parts.getD 0 "", parts.getD 1 ""))
    let speed_map := entries.foldl dict_update []
    let matched := (speed_map.filter (fun p => pyin "1.0" p.1)).map (fun p => p.2)
    match matched.head? with
    | some u => Except.ok (some u)
    | none => Except.error "IndexError"

/-- Lazy scan for the close delimiter of a non-greedy regex group: returns
the shortest capture and the remainder after the close delimiter; a newline
cannot be matched by `.` so it aborts the scan, as does running out of
input.  Fuel bounds the recursion and is always given larger than the input
length. -/
def scanClose (closeT : List Char) : Nat → List Char → List Char →
    Option (List Char × List Char)
  | 0, _, _ => none
  | fuel + 1, acc, s =>
    if closeT.isPrefixOf s then some (acc.reverse, s.drop closeT.length)
    else
      match s with
      | [] => none
      | c :: rest =>
        if c = '\n' then none else scanClose closeT fuel (c :: acc) rest

/-- re.findall over pattern openT(.*?)closeT: leftmost shortest
non-overlapping matches; a position where no close delimiter is reachable
advances by one character. -/
def findallCaptures (openT closeT : List Char) : Nat → List Char → List (List Char)
  | 0, _ => []
  | fuel + 1, s =>
    match s with
    | [] => []
    | c :: rest =>
      if openT.isPrefixOf (c :: rest) then
        match scanClose closeT (s.length + 1) [] ((c :: rest).drop openT.length) with
        | some (cap, rem) => cap :: findallCaptures openT closeT fuel rem
        | none => findallCaptures openT closeT fuel rest
      else findallCaptures openT closeT fuel rest

/-- re.sub of a backslash, a lazy run, and a backslash, replaced by nothing:
each span from a backslash to the nearest following backslash (no newline
between) is removed. -/
def removeBackslashSpans : Nat → List Char → List Char
  | 0, s => s
  | fuel + 1, s =>
    match s with
    | [] => []
    | c :: rest =>
      if c = '\\' then
        match scanClose ['\\'] (rest.length + 1) [] rest with
        | some (_, rem) => removeBackslashSpans fuel rem
        | none => c :: removeBackslashSpans fuel rest
      else c :: removeBackslashSpans fuel rest

/-- The character class of the residual-markup-tag regex in
searchable_text_from_problem_data. -/
def tagClassChar (c : Char) : Bool :=
  c.isAlpha || c.isDigit || c = '/' || c = '.' || c = '=' || c = ' ' ||
  c = '\"' || c = '\'' || c = '_' || c = '-'

/-- re.sub removing residual markup tags: a `<`, one or more class
characters, then `>`.  The class excludes both angle brackets, so the greedy
run is exact and no backtracking case remains. -/
def removeTags : Nat → List Char → List Char
  | 0, s => s
  | _ + 1, [] => []
  | fuel + 1, c :: rest =>
    if c = '<' then
      let run := rest.takeWhile tagClassChar
      let rem := rest.drop run.length
      if run.length > 0 then
        match rem with
        | '>' :: rem2 => removeTags fuel rem2
        | _ => c :: removeTags fuel rest
      else c :: removeTags fuel rest
    else c :: removeTags fuel rest

/-- re.sub of `(.)\1{4,}` by nothing: any maximal run of five or more equal
characters is dropped whole (`.` does not match newline, so newline runs
stay). -/
def collapseRuns : Nat → List Char → List Char
  | 0, s => s
  | _ + 1, [] => []
  | fuel + 1, c :: rest =>
    let run := rest.takeWhile (fun x => x = c)
    if c ≠ '\n' ∧ run.length + 1 ≥ 5 then
      collapseRuns fuel (rest.drop run.length)
    else c :: collapseRuns fuel rest

/-- es_requests.MongoIndexer.searchable_text_from_problem_data on the data
field.  CPython note on the paragraph filter: the source tests
`text is not "Explanation"`, an object identity test; re.findall returns
fresh slice objects, never the interned literal, so the test is true for
every capture and the filter drops nothing — the capture list is used
whole. -/
def searchable_text_from_problem_data (data : String) : String :=
  let p_texts := (findallCaptures "<p>".data "</p>".data
      (data.length + 1) data.data).map String.mk
  let t_texts := (findallCaptures "<text>".data "</text>".data
      (data.length + 1) data.data).map String.mk
  let paragraphs := pyjoin p_texts ++ " " ++ pyjoin t_texts
  let cleaned_text := (removeBackslashSpans (paragraphs.data.length + 1)
      paragraphs.data).filter (fun c => c ≠ '\\')
  let removed_tags := removeTags (cleaned_text.length + 1) cleaned_text
  let remove_repetitions := collapseRuns (removed_tags.length + 1) removed_tags
  String.mk remove_repetitions

/-- Words appended in full, each preceded by one space
(`response += " " + sentence`). -/
def appendFull (resp : String) (l : List String) : String :=
  l.foldl (fun r s => r ++ " " ++ s) resp

/-- The 45-word matching first sentence of the C5 counterexample. -/
def c5_first : String := pyjoin (List.replicate 44 "history") ++ " ends."

/-- The 6-word overflow sentence of the C5 counterexample. -/
def c5_overflow : String := "six more words follow right here."

/-! ### Helper lemmas -/

theorem pyInfixAux_nil (l : List Char) : pyInfixAux [] l = true := by
  cases l with
  | nil => rfl
  | cons c rest => simp [pyInfixAux, List.isPrefixOf]

theorem pyin_empty_left (s : String) : pyin "" s = true := by
  show pyInfixAux [] s.data = true
  exact pyInfixAux_nil s.data

theorem appendFull_nil (resp : String) : appendFull resp [] = resp := rfl

theorem appendFull_cons (resp s : String) (l : List String) :
    appendFull resp (s :: l) = appendFull (resp ++ " " ++ s) l := rfl

/-! ### Claim theorems -/

/-- C1: the fuzzy term matcher of the snippet highlighter.  The claim says
the query term "histories" matches (and highlights) the word "history" and
does not match "hidden".  On the code the second part holds but the first
fails: the Python 2 integer division makes the tolerance (9+7)/6 = 2 and the
test 2 < 2 false, so "histories" does not match "history" and the
highlighter leaves "history" unwrapped. -/
theorem C1_match_code_behavior :
    _match "histories" "history" = false ∧
    _match "histories" "hidden" = false ∧
    _match_highlighter "histories" "history" = "history " :=
  ⟨by decide, by decide, by decide⟩

/-- C6: media-identifier extraction.  A single-entry data field "0.75:abc"
returns failure (Python False, modelled Except.ok none), and the multi-entry
field "0.75:abc,1.0:xyz" returns "xyz" via the "1.0" speed key. -/
theorem C6_uuid_extraction :
    uuid_from_video_module "0.75:abc" = Except.ok none ∧
    uuid_from_video_module "0.75:abc,1.0:xyz" = Except.ok (some "xyz") :=
  ⟨rfl, rfl⟩

/-- C7: the claim says a paragraph body that is exactly "Explanation" never
appears in the extractor output.  In the code the filter is the identity
test `is not`, which is true for every freshly-captured string, so the
"Explanation" paragraph is kept: on data "<p>Explanation</p>" the capture
list is ["Explanation"] and the extractor output is "Explanation ",
containing the placeholder. -/
theorem C7_explanation_kept :
    (findallCaptures "<p>".data "</p>".data 19 "<p>Explanation</p>".data).map String.mk
      = ["Explanation"] ∧
    searchable_text_from_problem_data "<p>Explanation</p>" = "Explanation " ∧
    pyin "Explanation" (searchable_text_from_problem_data "<p>Explanation</p>") = true :=
  ⟨by decide, by decide, by decide⟩

/-- C10: filtering with a None or empty value matches every entry, because
the empty string is a substring of every string and a missing field defaults
to the empty text. -/
theorem C10_empty_value_matches_all (entries : List SearchEntry) (field : String) :
    SearchResults_filter entries field none = entries ∧
    SearchResults_filter entries field (some "") = entries := by
  have key : ∀ (e : SearchEntry),
      pyin (strip_punc "") (strip_punc (entry_get e field)) = true := by
    intro e
    have h0 : strip_punc "" = "" := rfl
    rw [h0, pyin_empty_left]
  constructor
  · exact List.filter_eq_self.mpr (fun e _ => key e)
  · exact List.filter_eq_self.mpr (fun e _ => key e)

/-- C3: the claim says a submission yielding an absent result after retries
does not raise and does not abort index_course.  On the code the orchestrator
reads .content from the None returned by index_data, raising AttributeError
and aborting: with two all-fields-populated video items and a submitter
whose retries are exhausted (always None), index_course stops with the error
and the second item is never processed; the same two items with a succeeding
submitter are both submitted. -/
theorem C3_none_submission_aborts :
    index_course (fun _ _ => none)
        [⟨"video", ⟨"i", "h", "d", "c", "s", "t", "th"⟩⟩,
         ⟨"video", ⟨"i2", "h2", "d2", "c2", "s2", "t2", "th2"⟩⟩]
      = Except.error PyError.attributeError ∧
    index_course (fun _ _ => some ⟨"ok"⟩)
        [⟨"video", ⟨"i", "h", "d", "c", "s", "t", "th"⟩⟩,
         ⟨"video", ⟨"i2", "h2", "d2", "c2", "s2", "t2", "th2"⟩⟩]
      = Except.ok [("transcript-index", ⟨"i", "h", "d", "c", "s", "t", "th"⟩),
                   ("transcript-index", ⟨"i2", "h2", "d2", "c2", "s2", "t2", "th2"⟩)] :=
  ⟨rfl, rfl⟩

theorem flaky_loop_none_iff (attempt : Nat → Except RequestFailure EsResponse) :
    ∀ (n i : Nat), (flaky_request_loop attempt i n = none ↔
      ∀ j, j < n → ∃ e, attempt (i + j) = Except.error e) := by
  intro n
  induction n with
  | zero => intro i; simp [flaky_request_loop]
  | succ n ih =>
    intro i
    constructor
    · intro h j hj
      cases ha : attempt i with
      | ok r => rw [flaky_request_loop, ha] at h; exact absurd h (by simp)
      | error e =>
        rw [flaky_request_loop, ha] at h
        cases j with
        | zero => exact ⟨e, by simpa using ha⟩
        | succ j =>
          have := (ih (i + 1)).mp h j (by omega)
          obtain ⟨e2, he2⟩ := this
          exact ⟨e2, by rw [show i + (j + 1) = i + 1 + j by omega]; exact he2⟩
    · intro h
      obtain ⟨e, he⟩ := h 0 (by omega)
      rw [flaky_request_loop, show attempt i = Except.error e by simpa using he]
      exact (ih (i + 1)).mpr (fun j hj => by
        obtain ⟨e2, he2⟩ := h (j + 1) (by omega)
        exact ⟨e2, by rw [show i + 1 + j = i + (j + 1) by omega]; exact he2⟩)

theorem flaky_loop_congr (f g : Nat → Except RequestFailure EsResponse) :
    ∀ (n i : Nat), (∀ j, j < n → f (i + j) = g (i + j)) →
      flaky_request_loop f i n = flaky_request_loop g i n := by
  intro n
  induction n with
  | zero => intro i _; rfl
  | succ n ih =>
    intro i h
    have h0 : f i = g i := by simpa using h 0 (by omega)
    rw [flaky_request_loop, flaky_request_loop, h0]
    cases g i with
    | ok r => rfl
    | error e =>
      exact ih (i + 1) (fun j hj => by
        rw [show i + 1 + j = i + (j + 1) by omega]; exact h (j + 1) (by omega))

/-- C9: the request wrapper runs at most `attempts` tries (its result
depends only on the outcomes of those numbered tries, and the declared
default is 2), swallows the transport-level exception of every failed try
(errors appear only as swallowed attempt outcomes, never in the result
type), and returns None exactly when every try fails. -/
theorem C9_flaky_request_retry (attempt : Nat → Except RequestFailure EsResponse)
    (n : Nat) :
    flaky_request attempt = flaky_request attempt 2 ∧
    (flaky_request attempt n = none ↔
      ∀ i, i < n → ∃ e, attempt i = Except.error e) ∧
    (∀ g, (∀ i, i < n → attempt i = g i) →
      flaky_request attempt n = flaky_request g n) := by
  refine ⟨rfl, ?_, ?_⟩
  · have h := flaky_loop_none_iff attempt n 0
    simpa [flaky_request] using h
  · intro g h
    exact flaky_loop_congr attempt g n 0 (fun j hj => by simpa using h j hj)

/-- C9 witness: with every attempt raising, two tries return None; and the
result for two tries is unchanged when the attempt outcomes agree below 2. -/
theorem C9_flaky_request_retry_witness :
    flaky_request (fun _ => Except.error RequestFailure.err) 2 = none ∧
    flaky_request (fun _ => Except.error RequestFailure.err) 2
      = flaky_request (fun i => if i < 2 then Except.error RequestFailure.err
          else Except.ok ⟨"x"⟩) 2 := by
  constructor
  · exact ((C9_flaky_request_retry (fun _ => Except.error RequestFailure.err) 2).2.1).mpr
      (fun i _ => ⟨RequestFailure.err, rfl⟩)
  · exact (C9_flaky_request_retry (fun _ => Except.error RequestFailure.err) 2).2.2
      (fun i => if i < 2 then Except.error RequestFailure.err else Except.ok ⟨"x"⟩)
      (fun i hi => by simp [hi])

/-- C2: the submission guard of index_course (Python
`filter(None, data.values()) == data.values()`) holds exactly when every
required field is non-empty; and over one video item with a succeeding
engine, index_course submits the built document when the guard holds and
submits nothing when it fails. -/
theorem C2_empty_field_not_submitted (d : SearchDocument) (r : EsResponse) :
    (index_course_submits d = true ↔
      (d.id ≠ "" ∧ d.hash ≠ "" ∧ d.display_name ≠ "" ∧ d.course_id ≠ "" ∧
       d.searchable_text ≠ "" ∧ d.thumbnail ≠ "" ∧ d.type_hash ≠ "")) ∧
    index_course (fun _ _ => some r) [⟨"video", d⟩]
      = Except.ok (if index_course_submits d then [("transcript-index", d)] else []) := by
  constructor
  · unfold index_course_submits
    rw [show ((sd_values d).filter (fun s => !(s == "")) == sd_values d) = true ↔
          (sd_values d).filter (fun s => !(s == "")) = sd_values d from beq_iff_eq]
    rw [List.filter_eq_self]
    simp [sd_values]
  · have hv : pyStrip (pyLower "video") = "video" := rfl
    cases h : index_course_submits d with
    | true =>
      simp only [index_course, hv, h]
      norm_num [index_course]
    | false =>
      simp only [index_course, hv, h]
      norm_num [index_course]

theorem snippet_loop_tripped_extends (subs : List String) (sm wm : Nat) :
    ∀ (l : List String) (resp : String),
      ∃ t, snippet_loop subs sm wm l true resp = (true, resp ++ t) := by
  intro l
  induction l with
  | nil => intro resp; exact ⟨"", by simp [snippet_loop]⟩
  | cons s rest ih =>
    intro resp
    by_cases h : (pysplit resp).length + (pysplit s).length < sm
    · obtain ⟨t, ht⟩ := ih (resp ++ " " ++ s)
      refine ⟨" " ++ s ++ t, ?_⟩
      rw [snippet_loop, if_pos rfl, if_pos h, ht]
      simp [String.append_assoc]
    · refine ⟨" " ++ pyjoin ((pysplit s).take wm), ?_⟩
      rw [snippet_loop, if_pos rfl, if_neg h]
      simp [String.append_assoc]

theorem snippet_loop_skip (subs : List String) (sm wm : Nat) :
    ∀ (pre : List String), (∀ x ∈ pre, query_container subs x = false) →
      ∀ (l : List String) (resp : String),
      snippet_loop subs sm wm (pre ++ l) false resp
        = snippet_loop subs sm wm l false resp := by
  intro pre
  induction pre with
  | nil => intro _ l resp; rfl
  | cons s rest ih =>
    intro h l resp
    have hs : query_container subs s = false := h s (by simp)
    rw [List.cons_append, snippet_loop, if_neg (by simp), if_neg (by simp [hs])]
    exact ih (fun x hx => h x (by simp [hx])) l resp

theorem fallback_loop_extends (sm wm : Nat) :
    ∀ (l : List String) (resp : String), ∃ t, fallback_loop sm wm l resp = resp ++ t := by
  intro l
  induction l with
  | nil => intro resp; exact ⟨"", by simp [fallback_loop]⟩
  | cons s rest ih =>
    intro resp
    by_cases h : (pysplit resp).length + (pysplit s).length < sm
    · obtain ⟨t, ht⟩ := ih (resp ++ " " ++ s)
      refine ⟨" " ++ s ++ t, ?_⟩
      rw [fallback_loop, if_pos h, ht]
      simp [String.append_assoc]
    · refine ⟨" " ++ pyjoin ((pysplit s).take wm), ?_⟩
      rw [fallback_loop, if_neg h]
      simp [String.append_assoc]

theorem snippet_loop_cons_match (subs : List String) (sm wm : Nat) (s : String)
    (rest : List String) (resp : String) (h : query_container subs s = true) :
    snippet_loop subs sm wm (s :: rest) false resp
      = snippet_loop subs sm wm rest true (resp ++ s) := by
  simp [snippet_loop, h]

/-- C4: the snippet starts at the first sentence containing a query term
(case-insensitive substring); when no sentence contains one, accumulation
starts from the very first sentence (with a leading separator space): the
first sentence appears in full when it is under soft_max words, and
otherwise as its first word_margin words. -/
theorem C4_snippet_start (sentences : List String) (query : String) (sm wm : Nat) :
    (∀ (pre : List String) (s : String) (post : List String),
       sentences = pre ++ s :: post →
       (∀ x ∈ pre, query_container (query_terms query) x = false) →
       query_container (query_terms query) s = true →
       ∃ t, snippet_response sentences query sm wm = s ++ t) ∧
    ((∀ s ∈ sentences, query_container (query_terms query) s = false) →
     ∀ (s0 : String) (rest : List String), sentences = s0 :: rest →
       (if (pysplit s0).length < sm then
          ∃ t, snippet_response sentences query sm wm = " " ++ s0 ++ t
        else snippet_response sentences query sm wm
          = " " ++ pyjoin ((pysplit s0).take wm))) := by
  constructor
  · intro pre s post hdec hpre hs
    subst hdec
    obtain ⟨t, ht⟩ := snippet_loop_tripped_extends (query_terms query) sm wm post ("" ++ s)
    refine ⟨t, ?_⟩
    simp only [snippet_response]
    rw [snippet_loop_skip (query_terms query) sm wm pre hpre (s :: post) "",
        snippet_loop_cons_match (query_terms query) sm wm s post "" hs, ht]
    simp
  · intro hall s0 rest hdec
    subst hdec
    have hloop : snippet_loop (query_terms query) sm wm (s0 :: rest) false "" = (false, "") := by
      have := snippet_loop_skip (query_terms query) sm wm (s0 :: rest) hall [] ""
      rw [List.append_nil] at this
      rw [this]
      rfl
    have hz : (pysplit "").length = 0 := rfl
    by_cases h : (pysplit s0).length < sm
    · rw [if_pos h]
      obtain ⟨t, ht⟩ := fallback_loop_extends sm wm rest ("" ++ " " ++ s0)
      refine ⟨t, ?_⟩
      simp only [snippet_response]
      rw [hloop]
      show fallback_loop sm wm (s0 :: rest) "" = " " ++ s0 ++ t
      rw [fallback_loop, if_pos (by rw [hz]; omega), ht]
      simp [String.append_assoc]
    · rw [if_neg h]
      simp only [snippet_response]
      rw [hloop]
      show fallback_loop sm wm (s0 :: rest) "" = " " ++ pyjoin ((pysplit s0).take wm)
      rw [fallback_loop, if_neg (by rw [hz]; omega)]
      simp

/-- C4 witness: on the example of the claim the snippet starts at "History
begins here.", and with a query matching nothing it starts from the first
sentence. -/
theorem C4_snippet_start_witness :
    (∃ t, snippet_response ["Intro sentence.", "History begins here.",
        "More details follow with extra words to pad length."] "history" 50 25
      = "History begins here." ++ t) ∧
    (∃ t, snippet_response ["Intro sentence.", "Second one."] "zebra" 50 25
      = " " ++ "Intro sentence." ++ t) := by
  constructor
  · exact (C4_snippet_start ["Intro sentence.", "History begins here.",
        "More details follow with extra words to pad length."] "history" 50 25).1
      ["Intro sentence."] "History begins here."
      ["More details follow with extra words to pad length."] rfl (by decide) (by decide)
  · have h := (C4_snippet_start ["Intro sentence.", "Second one."] "zebra" 50 25).2
      (by decide) "Intro sentence." ["Second one."] rfl
    have hc : (pysplit "Intro sentence.").length < 50 := by decide
    rw [if_pos hc] at h
    exact h

/-- C5 (amended): in the accumulation that follows the starting sentence,
there is a cut index k such that every sentence before it was appended in
full with the running word total staying strictly under soft_max, and either
every sentence fit (k is the length) or the k-th sentence crosses soft_max
and contributes exactly its first word_margin words, after which the loop
stops.  (The overflow sentence therefore appears truncated only when it has
more than word_margin words; a shorter crossing sentence is reproduced in
full by the take.) -/
theorem C5_accumulation_truncates (subs : List String) (sm wm : Nat) :
    ∀ (l : List String) (resp : String),
      ∃ k, k ≤ l.length ∧
        (∀ i, i < k → (pysplit (appendFull resp (l.take i))).length
            + (pysplit (l.getD i "")).length < sm) ∧
        ((k = l.length ∧ (snippet_loop subs sm wm l true resp).2 = appendFull resp l) ∨
         (k < l.length ∧
          sm ≤ (pysplit (appendFull resp (l.take k))).length
              + (pysplit (l.getD k "")).length ∧
          (snippet_loop subs sm wm l true resp).2
            = appendFull resp (l.take k) ++ " "
                ++ pyjoin ((pysplit (l.getD k "")).take wm))) := by
  intro l
  induction l with
  | nil =>
    intro resp
    exact ⟨0, by simp, fun i hi => absurd hi (Nat.not_lt_zero i), Or.inl ⟨rfl, rfl⟩⟩
  | cons s rest ih =>
    intro resp
    by_cases h : (pysplit resp).length + (pysplit s).length < sm
    · obtain ⟨k, hk, hcond, hres⟩ := ih (resp ++ " " ++ s)
      have hstep : snippet_loop subs sm wm (s :: rest) true resp
          = snippet_loop subs sm wm rest true (resp ++ " " ++ s) := by
        simp [snippet_loop, h]
      refine ⟨k + 1, by simpa using Nat.succ_le_succ hk, ?_, ?_⟩
      · intro i hi
        cases i with
        | zero => simpa [appendFull_nil] using h
        | succ j =>
          have hj := hcond j (by omega)
          simpa [List.take_succ_cons, appendFull_cons, List.getD_cons_succ] using hj
      · rcases hres with ⟨hkl, hval⟩ | ⟨hkl, hge, hval⟩
        · exact Or.inl ⟨by simp [hkl], by rw [hstep, hval, appendFull_cons]⟩
        · refine Or.inr ⟨by simpa using Nat.succ_lt_succ hkl, ?_, ?_⟩
          · simpa [List.take_succ_cons, appendFull_cons, List.getD_cons_succ] using hge
          · rw [hstep, hval]
            simp [List.take_succ_cons, appendFull_cons, List.getD_cons_succ]
    · refine ⟨0, by omega, fun i hi => absurd hi (Nat.not_lt_zero i),
        Or.inr ⟨by simp, ?_, ?_⟩⟩
      · simpa [appendFull_nil] using Nat.le_of_not_lt h
      · simp [snippet_loop, h, appendFull_nil]


set_option maxRecDepth 40000 in
/-- C5 counterexample to the claim as stated: with the default soft_max 50
and word_margin 25, the 6-word sentence that crosses the 50-word threshold
after a 45-word starting sentence is included in the snippet in full (its
first 25 words are all of it), contradicting that the overflow sentence is
never included in full. -/
theorem C5_overflow_included_in_full :
    snippet_response [c5_first, c5_overflow] "history" 50 25
      = c5_first ++ " " ++ c5_overflow ∧
    50 ≤ (pysplit c5_first).length + (pysplit c5_overflow).length ∧
    (pysplit c5_overflow).length ≤ 25 :=
  ⟨by decide, by decide, by decide⟩

theorem pyIsPunc_pyCharLower (c : Char) : pyIsPunc (pyCharLower c) = pyIsPunc c := by
  unfold pyCharLower
  by_cases h : 65 ≤ c.toNat ∧ c.toNat ≤ 90
  · rw [if_pos h]
    obtain ⟨h1, h2⟩ := h
    have hval : (c.toNat + 32).isValidChar := Or.inl (by omega)
    have hv : (Char.ofNat (c.toNat + 32)).toNat = c.toNat + 32 := by
      simp only [Char.ofNat]
      rw [dif_pos hval]
      exact rfl
    have hA : pyIsPunc (Char.ofNat (c.toNat + 32)) = false := by
      simp only [pyIsPunc, hv, Bool.or_eq_false_iff, Bool.and_eq_false_iff,
        decide_eq_false_iff_not, not_le]
      omega
    have hB : pyIsPunc c = false := by
      simp only [pyIsPunc, Bool.or_eq_false_iff, Bool.and_eq_false_iff,
        decide_eq_false_iff_not, not_le]
      omega
    rw [hA, hB]
  · rw [if_neg h]

theorem filter_punct_map_lower (l : List Char) :
    (l.filter (fun c => !pyIsPunc c)).map pyCharLower
      = (l.map pyCharLower).filter (fun c => !pyIsPunc c) := by
  rw [List.filter_map]
  have hp : ((fun c => !pyIsPunc c) ∘ pyCharLower) = fun c => !pyIsPunc c := by
    funext c
    simp [Function.comp, pyIsPunc_pyCharLower]
  rw [hp]

theorem strip_punc_eq_lower_then_strip (s : String) :
    strip_punc s = lower_then_strip s := by
  show String.mk (((String.mk (s.data.filter (fun c => !pyIsPunc c))).data).map pyCharLower)
    = String.mk (((String.mk (s.data.map pyCharLower)).data).filter (fun c => !pyIsPunc c))
  exact congrArg String.mk (filter_punct_map_lower s.data)

/-- C8: an entry passes SearchResults.filter exactly when it is one of the
entries and the normalized value (lowercased with all punctuation removed,
in the order the specification words the normalization) is a substring of
the likewise normalized field text; in particular value "Problem" on field
"category" matches the entry whose category text is "PROBLEM TYPE A". -/
theorem C8_filter_normalized_substring (entries : List SearchEntry)
    (field value : String) (e : SearchEntry) :
    (e ∈ SearchResults_filter entries field (some value) ↔
      e ∈ entries ∧
        pyin (lower_then_strip value) (lower_then_strip (entry_get e field)) = true) ∧
    SearchResults_filter [⟨[("category", "PROBLEM TYPE A")]⟩] "category" (some "Problem")
      = [⟨[("category", "PROBLEM TYPE A")]⟩] := by
  constructor
  · show e ∈ entries.filter
        (fun x => pyin (strip_punc value) (strip_punc (entry_get x field))) ↔ _
    rw [List.mem_filter]
    rw [strip_punc_eq_lower_then_strip value, strip_punc_eq_lower_then_strip (entry_get e field)]
  · decide
